import Mathlib

/-
Verification of the fubade-ics schedule scraper (src/fubade-ics.py).

The development shallowly embeds the two pure-logic functions of the script:

* `parse_games` — the row-classifier / game-assembler: a single pass over a
  list of table rows with a current-record accumulator (`current_game`) and a
  `skip_game` flag, producing a list of game records;
* `write_ical` — the calendar writer serializing records to iCalendar text.

Rows are abstracted to the data the source actually reads from each `tr`
element: its class list, its text, the texts of its club-name divs, the hrefs
of its detail anchors, and the texts of its colspan-3 cells.  Python
exceptions (ValueError from strptime, IndexError from list indexing, KeyError
from dict access) are modelled by `Except PyErr`.  Python naive datetimes are
modelled by a record of numeric fields with Gregorian calendar arithmetic;
`%Y` is rendered zero-padded to four digits.
-/

namespace Fubade

instance {ε α : Type} [DecidableEq ε] [DecidableEq α] : DecidableEq (Except ε α) :=
  fun a b =>
  match a, b with
  | .error e1, .error e2 =>
    if h : e1 = e2 then .isTrue (by rw [h])
    else .isFalse (by intro hc; injection hc; exact h ‹_›)
  | .ok x, .ok y =>
    if h : x = y then .isTrue (by rw [h])
    else .isFalse (by intro hc; injection hc; exact h ‹_›)
  | .error _, .ok _ => .isFalse (by intro hc; exact Except.noConfusion hc)
  | .ok _, .error _ => .isFalse (by intro hc; exact Except.noConfusion hc)

/-- Python exception kinds that the embedded code can raise. -/
inductive PyErr where
  | valueError
  | indexError
  | keyError
deriving DecidableEq, Repr

/-- A naive `datetime.datetime` as produced by `strptime` (seconds are 0). -/
structure PyDateTime where
  year : Nat
  month : Nat
  day : Nat
  hour : Nat
  minute : Nat
deriving DecidableEq, Repr

/-- Abstraction of one `tr` element: exactly the data `parse_games` reads. -/
structure Row where
  classes : List String
  text : String
  clubNames : List String
  detailHrefs : List String
  venueCells : List String
deriving DecidableEq, Repr

/-- The game dict built by `parse_games`; a `none` field is an absent key. -/
structure Game where
  datetime : Option PyDateTime
  competition : Option String
  team1 : Option String
  team2 : Option String
  details : Option String
  venue : Option String
deriving DecidableEq, Repr

/-- The empty dict `{}` (every key absent). -/
def Game.empty : Game := ⟨none, none, none, none, none, none⟩

/-- Python whitespace stripped by `str.strip()` (ASCII part). -/
def isPySpace (c : Char) : Bool :=
  c = ' ' || c = '\t' || c = '\n' || c = '\r' || c = '\x0b' || c = '\x0c'

/-- Text of `str.strip()` on a character list. -/
def pyStripL (cs : List Char) : List Char :=
  ((cs.dropWhile isPySpace).reverse.dropWhile isPySpace).reverse

/-- Text of `str.strip()`. -/
def pyStrip (s : String) : String := String.mk (pyStripL s.data)

/-- Attempt of the regex `, (\d{2}.\d{2}.\d{4} - \d{2}:\d{2} Uhr) \| (.+)` at
the head of the input; `.` matches any character except a newline, and the
trailing greedy `.+` takes the maximal nonempty newline-free run.  Returns
(group 1, group 2) on success. -/
def hlMatchAt (cs : List Char) : Option (List Char × List Char) :=
  match cs with
  | ',' :: ' ' :: d1 :: d2 :: w1 :: d3 :: d4 :: w2 :: y1 :: y2 :: y3 :: y4 ::
      ' ' :: '-' :: ' ' :: h1 :: h2 :: ':' :: n1 :: n2 ::
      ' ' :: 'U' :: 'h' :: 'r' :: ' ' :: '|' :: ' ' :: rest =>
    if d1.isDigit && d2.isDigit && w1 != '\n' && d3.isDigit && d4.isDigit &&
       w2 != '\n' && y1.isDigit && y2.isDigit && y3.isDigit && y4.isDigit &&
       h1.isDigit && h2.isDigit && n1.isDigit && n2.isDigit then
      let g2 := rest.takeWhile (fun c => c != '\n')
      if g2 = [] then none
      else
        some ([d1, d2, w1, d3, d4, w2, y1, y2, y3, y4,
               ' ', '-', ' ', h1, h2, ':', n1, n2, ' ', 'U', 'h', 'r'], g2)
    else none
  | _ => none

/-- Leftmost search of the headline regex, as `re.search` performs it. -/
def hlSearch (cs : List Char) : Option (List Char × List Char) :=
  match hlMatchAt cs with
  | some r => some r
  | none =>
    match cs with
    | [] => none
    | _ :: rest => hlSearch rest

/-- Numeric value of a decimal digit character. -/
def digitVal (c : Char) : Nat := c.toNat - 48

/-- Greedy read of one or two decimal digits (the `%d`, `%m`, `%H`, `%M`
directives of `strptime`). -/
def takeDigits2 : List Char → Option (Nat × List Char)
  | c1 :: c2 :: rest =>
    if c1.isDigit then
      if c2.isDigit then some (digitVal c1 * 10 + digitVal c2, rest)
      else some (digitVal c1, c2 :: rest)
    else none
  | [c1] => if c1.isDigit then some (digitVal c1, []) else none
  | [] => none

/-- Read of exactly four decimal digits (the `%Y` directive). -/
def take4Digits : List Char → Option (Nat × List Char)
  | a :: b :: c :: d :: rest =>
    if a.isDigit && b.isDigit && c.isDigit && d.isDigit then
      some (((digitVal a * 10 + digitVal b) * 10 + digitVal c) * 10 + digitVal d, rest)
    else none
  | _ => none

/-- Consume one expected literal character. -/
def expectChar (c : Char) : List Char → Option (List Char)
  | x :: rest => if x = c then some rest else none
  | [] => none

/-- Gregorian leap-year test. -/
def isLeapYear (y : Nat) : Bool :=
  y % 4 = 0 && (y % 100 != 0 || y % 400 = 0)

/-- Number of days in a month of the proleptic Gregorian calendar. -/
def daysInMonth (y m : Nat) : Nat :=
  if m = 2 then (if isLeapYear y then 29 else 28)
  else if m = 4 ∨ m = 6 ∨ m = 9 ∨ m = 11 then 30
  else 31

/-- Reading of the `%d.%m.%Y` part of the format string. -/
def parseDayMonthYear (cs : List Char) : Option (Nat × Nat × Nat × List Char) :=
  match takeDigits2 cs with
  | none => none
  | some (d, cs1) =>
    match expectChar '.' cs1 with
    | none => none
    | some cs2 =>
      match takeDigits2 cs2 with
      | none => none
      | some (m, cs3) =>
        match expectChar '.' cs3 with
        | none => none
        | some cs4 =>
          match take4Digits cs4 with
          | none => none
          | some (y, cs5) => some (d, m, y, cs5)

/-- Reading of the literal ` - ` and the `%H:%M` part of the format string. -/
def parseHourMinute (cs : List Char) : Option (Nat × Nat × List Char) :=
  match expectChar ' ' cs with
  | none => none
  | some cs1 =>
    match expectChar '-' cs1 with
    | none => none
    | some cs2 =>
      match expectChar ' ' cs2 with
      | none => none
      | some cs3 =>
        match takeDigits2 cs3 with
        | none => none
        | some (h, cs4) =>
          match expectChar ':' cs4 with
          | none => none
          | some cs5 =>
            match takeDigits2 cs5 with
            | none => none
            | some (mi, cs6) => some (h, mi, cs6)

/-- Reading of the trailing literal ` Uhr`, which must end the string. -/
def parseUhrEnd (cs : List Char) : Bool :=
  match cs with
  | [' ', 'U', 'h', 'r'] => true
  | _ => false

/-- Model of `datetime.strptime(s, "%d.%m.%Y - %H:%M Uhr")`: the whole string
must be consumed and the fields must form a valid calendar date and time of
day; `none` models the ValueError raised otherwise. -/
def strptimeDM (cs : List Char) : Option PyDateTime :=
  match parseDayMonthYear cs with
  | none => none
  | some (d, m, y, rest) =>
    match parseHourMinute rest with
    | none => none
    | some (h, mi, rest2) =>
      if parseUhrEnd rest2 then
        if 1 ≤ y ∧ y ≤ 9999 ∧ 1 ≤ m ∧ m ≤ 12 ∧ 1 ≤ d ∧ d ≤ daysInMonth y m ∧
           h ≤ 23 ∧ mi ≤ 59 then
          some ⟨y, m, d, h, mi⟩
        else none
      else none

/-- State of the `parse_games` loop: the finished list, the accumulator dict
and the skip flag. -/
structure PState where
  games : List Game
  current : Game
  skip : Bool
deriving DecidableEq, Repr

/-- One iteration of the row loop of `parse_games` (lines 29-61). -/
def step (st : PState) (row : Row) : Except PyErr PState :=
  if "row-headline" ∉ row.classes ∧ st.skip = true then .ok st
  else if "row-headline" ∈ row.classes then
    let st1 :=
      if st.current = Game.empty then st
      else
        { games := if st.skip = false then st.games ++ [st.current] else st.games
          current := Game.empty
          skip := false }
    match hlSearch (pyStripL row.text.data) with
    | none => .ok { st1 with skip := true }
    | some (g1, g2) =>
      match strptimeDM g1 with
      | none => .error .valueError
      | some dt =>
        .ok { st1 with
                current := { st1.current with
                               datetime := some dt
                               competition := some (String.mk (pyStripL g2)) } }
  else if row.classes = [] ∨ row.classes = ["odd"] then
    match row.clubNames with
    | c1 :: c2 :: _ =>
      let cur1 := { st.current with team1 := some (pyStrip c1), team2 := some (pyStrip c2) }
      let cur2 :=
        match row.detailHrefs with
        | [] => cur1
        | h :: _ => { cur1 with details := some h }
      .ok { st with current := cur2 }
    | _ => .error .indexError
  else if "row-venue" ∈ row.classes then
    match row.venueCells with
    | [] => .error .indexError
    | c :: _ => .ok { st with current := { st.current with venue := some (pyStrip c) } }
  else .ok st

/-- The row loop, threading the state through `step`. -/
def parseGamesAux : PState → List Row → Except PyErr PState
  | st, [] => .ok st
  | st, r :: rs =>
    match step st r with
    | .error e => .error e
    | .ok st' => parseGamesAux st' rs

/-- Final append of `parse_games` (lines 63-64): the accumulator is appended
whenever it is a nonempty dict — the skip flag is not consulted here. -/
def finishState (st : PState) : List Game :=
  if st.current = Game.empty then st.games else st.games ++ [st.current]

/-- Model of `parse_games`: run the row loop from the initial state and
perform the final append. -/
def parse_games (rows : List Row) : Except PyErr (List Game) :=
  match parseGamesAux ⟨[], Game.empty, false⟩ rows with
  | .error e => .error e
  | .ok st => .ok (finishState st)

/-- Python `str.replace(old, new)` on character lists (nonempty `old`):
replace non-overlapping occurrences left to right. -/
def replaceL (old new : List Char) : List Char → List Char
  | [] => []
  | c :: rest =>
    if h : old ≠ [] ∧ old.isPrefixOf (c :: rest) then
      new ++ replaceL old new ((c :: rest).drop old.length)
    else c :: replaceL old new rest
termination_by s => s.length
decreasing_by
  · have h1 : 0 < old.length := List.length_pos.mpr h.1
    simp only [List.length_drop, List.length_cons]
    omega
  · simp only [List.length_cons]
    omega

/-- Model of `s.replace(",", "\\,")`. -/
def escapeCommas (s : String) : String :=
  String.mk (replaceL [','] ['\\', ','] s.data)

/-- Zero-padded two-digit decimal rendering (directives `%m %d %H %M %S`). -/
def pad2 (n : Nat) : List Char :=
  [Char.ofNat (48 + n / 10 % 10), Char.ofNat (48 + n % 10)]

/-- Zero-padded four-digit decimal rendering (directive `%Y`). -/
def pad4 (n : Nat) : List Char :=
  [Char.ofNat (48 + n / 1000 % 10), Char.ofNat (48 + n / 100 % 10),
   Char.ofNat (48 + n / 10 % 10), Char.ofNat (48 + n % 10)]

/-- Model of `datetime.strftime("%Y%m%dT%H%M%S")` (seconds are always 0). -/
def strftimeCompact (dt : PyDateTime) : String :=
  String.mk (pad4 dt.year ++ pad2 dt.month ++ pad2 dt.day ++ 'T' ::
             (pad2 dt.hour ++ pad2 dt.minute ++ ['0', '0']))

/-- Successor day in the proleptic Gregorian calendar. -/
def nextDay (dt : PyDateTime) : PyDateTime :=
  if dt.day < daysInMonth dt.year dt.month then { dt with day := dt.day + 1 }
  else if dt.month < 12 then { dt with month := dt.month + 1, day := 1 }
  else { year := dt.year + 1, month := 1, day := 1, hour := dt.hour, minute := dt.minute }

/-- Advance a datetime by a number of whole days. -/
def addDays : Nat → PyDateTime → PyDateTime
  | 0, dt => dt
  | n + 1, dt => addDays n (nextDay dt)

/-- Model of `dt + timedelta(minutes=n)` (the script only adds 105). -/
def addMinutes (dt : PyDateTime) (n : Nat) : PyDateTime :=
  let t := dt.hour * 60 + dt.minute + n
  addDays (t / 1440) { dt with hour := t / 60 % 24, minute := t % 60 }

/-- The interpolated fields of one VEVENT block of `write_ical`. -/
structure EventFields where
  dtstart : String
  dtend : String
  summary : String
  location : String
  description : String
  url : String
deriving DecidableEq, Repr

/-- Computation of the per-game locals of `write_ical` (lines 123-129 and the
URL expression), in the source's evaluation order; a missing required key
raises KeyError. -/
def eventFieldsOf (g : Game) : Except PyErr EventFields :=
  match g.team1 with
  | none => .error .keyError
  | some t1 =>
    match g.team2 with
    | none => .error .keyError
    | some t2 =>
      match g.competition with
      | none => .error .keyError
      | some comp =>
        match g.datetime with
        | none => .error .keyError
        | some dt =>
          .ok { dtstart := strftimeCompact dt
                dtend := strftimeCompact (addMinutes dt 105)
                summary := t1 ++ " - " ++ t2
                location := match g.venue with
                            | some v => escapeCommas v
                            | none => ""
                description := escapeCommas comp
                url := match g.details with
                       | some d => d
                       | none => "" }

/-- The VEVENT block template of `write_ical` (lines 130-138). -/
def renderEvent (e : EventFields) : String :=
  "BEGIN:VEVENT\nDTSTART:" ++ e.dtstart ++ "\nDTEND:" ++ e.dtend ++
  "\nSUMMARY:" ++ e.summary ++ "\nLOCATION:" ++ e.location ++
  "\nDESCRIPTION:" ++ e.description ++ "\nURL:" ++ e.url ++ "\nEND:VEVENT\n"

/-- Concatenation of the event blocks of a game list, stopping at the first
raised exception. -/
def eventsText : List Game → Except PyErr String
  | [] => .ok ""
  | g :: gs =>
    match eventFieldsOf g with
    | .error e => .error e
    | .ok f =>
      match eventsText gs with
      | .error e => .error e
      | .ok rest => .ok (renderEvent f ++ rest)

/-- The calendar-open section of `write_ical` (lines 119-120). -/
def calendarHeader (teamName : String) : String :=
  "BEGIN:VCALENDAR\n" ++ ("X-WR-CALNAME:" ++ teamName ++ " Spielplan\n")

/-- Model of `write_ical`: the full text handed to `fp.write`; an exception
raised while formatting any event aborts before anything is written. -/
def write_ical (teamName : String) (games : List Game) : Except PyErr String :=
  match eventsText games with
  | .error e => .error e
  | .ok evs => .ok (calendarHeader teamName ++ evs ++ "END:VCALENDAR\n")

/-- Combined headline parse: the regex search on the stripped headline text
followed by `strptime` on group 1; `some (dt, g2)` carries the parsed
datetime and the raw competition group. -/
def headlineParse (t : String) : Option (PyDateTime × List Char) :=
  match hlSearch (pyStripL t.data) with
  | none => none
  | some (g1, g2) =>
    match strptimeDM g1 with
    | none => none
    | some dt => some (dt, g2)

/-- A headline-led game group as the page markup produces it: one headline
row, one detail row, and an optional venue row. -/
structure GameGroup where
  headline : Row
  detail : Row
  venue : Option Row
deriving DecidableEq, Repr

/-- The row sequence of a group. -/
def GameGroup.rows (grp : GameGroup) : List Row :=
  [grp.headline, grp.detail] ++ grp.venue.toList

/-- Concatenation of the row sequences of a list of groups. -/
def rowsOfGroups : List GameGroup → List Row
  | [] => []
  | g :: gs => g.rows ++ rowsOfGroups gs

/-- Well-formedness of a group: the headline row carries the headline class
and its text parses (regex and strptime both succeed), the detail row carries
the empty or `odd` class list and at least two club names, and a venue row,
when present, carries the venue class and a colspan-3 cell. -/
structure WFGroup (grp : GameGroup) : Prop where
  hl_class : "row-headline" ∈ grp.headline.classes
  hl_parse : (headlineParse grp.headline.text).isSome = true
  det_class : grp.detail.classes = [] ∨ grp.detail.classes = ["odd"]
  det_clubs : 2 ≤ grp.detail.clubNames.length
  ven_ok : ∀ v, grp.venue = some v →
    "row-headline" ∉ v.classes ∧ v.classes ≠ [] ∧ v.classes ≠ ["odd"] ∧
    "row-venue" ∈ v.classes ∧ v.venueCells ≠ []

/-- The record that assembling one well-formed group produces. -/
def gameOf (grp : GameGroup) : Game :=
  match headlineParse grp.headline.text, grp.detail.clubNames with
  | some (dt, g2), c1 :: c2 :: _ =>
    { datetime := some dt
      competition := some (String.mk (pyStripL g2))
      team1 := some (pyStrip c1)
      team2 := some (pyStrip c2)
      details := grp.detail.detailHrefs.head?
      venue := grp.venue.map (fun v => pyStrip (v.venueCells.headD "")) }
  | _, _ => Game.empty

/-- Modelled from the claim's wording, for comparison with `replaceL`: every
comma of the input is replaced by backslash-comma, every other character is
kept unchanged. -/
def escapeCommaSpec : List Char → List Char
  | [] => []
  | c :: rest => (if c = ',' then ['\\', ','] else [c]) ++ escapeCommaSpec rest

/-- Shape of a compact `YYYYMMDDTHHMMSS` timestamp: eight decimal digits, one
literal `T`, six decimal digits. -/
def compactShape (s : String) : Prop :=
  ∃ a b, s.data = a ++ 'T' :: b ∧ a.length = 8 ∧ b.length = 6 ∧
    (∀ c ∈ a, c.isDigit = true) ∧ (∀ c ∈ b, c.isDigit = true)

/-- Headline row of the concrete scenario of the spec. -/
def hlRowC8 : Row := ⟨["row-headline"], "Sa, 12.04.2025 - 15:00 Uhr | Kreisliga A", [], [], []⟩

/-- Detail row of the concrete scenario of the spec. -/
def detRowC8 : Row := ⟨[], "", ["FC Nord", "FC Süd"], [], []⟩

/-- Venue row of the concrete scenario of the spec. -/
def venRowC8 : Row := ⟨["row-venue"], "", [], [], ["Sportplatz Ost"]⟩

/-- The row sequence of the concrete scenario of the spec. -/
def c8Rows : List Row := [hlRowC8, detRowC8, venRowC8]

/-- The record the concrete scenario parses to. -/
def c8Game : Game :=
  ⟨some ⟨2025, 4, 12, 15, 0⟩, some "Kreisliga A", some "FC Nord", some "FC Süd",
   none, some "Sportplatz Ost"⟩

/-- The concrete scenario as a game group (with venue row). -/
def grpA : GameGroup := ⟨hlRowC8, detRowC8, some venRowC8⟩

/-- A second well-formed group: `odd` detail row, a detail link, no venue. -/
def grpB : GameGroup :=
  ⟨⟨["row-headline"], "So, 13.04.2025 - 11:30 Uhr | Kreisliga B", [], [], []⟩,
   ⟨["odd"], "", ["SV Ost", "SV West"], ["/spiel/123"], []⟩, none⟩

/-- A headline row whose text has no date (a postponed entry). -/
def badHlRow : Row := ⟨["row-headline"], "Spiel abgesagt", [], [], []⟩

/-- A headline row whose text matches the regex only through the `.` wildcards
(the separators of the date part are `x`, not `.`), so `strptime` rejects it. -/
def wildcardHlRow : Row :=
  ⟨["row-headline"], "Sa, 12x04x2025 - 15:00 Uhr | Kreisliga A", [], [], []⟩

/-- A dateless headline directly followed by a matching headline: the input
that leaves the skip flag set while the accumulator is nonempty. -/
def poisonRows : List Row := [badHlRow, hlRowC8]

/-- The record holding only the fields a matching headline contributes. -/
def dtOnlyGame : Game :=
  ⟨some ⟨2025, 4, 12, 15, 0⟩, some "Kreisliga A", none, none, none, none⟩

/-- A detail row with a single club name. -/
def malDetailRow : Row := ⟨[], "", ["FC Solo"], [], []⟩

/-- A venue row without a colspan-3 cell. -/
def malVenueRow : Row := ⟨["row-venue"], "", [], [], []⟩

/-- A record with commas in competition and venue and with a detail link. -/
def c7Game : Game :=
  ⟨some ⟨2025, 4, 12, 15, 0⟩, some "Kreisliga A, Staffel 2", some "FC Nord",
   some "FC Süd", some "/spiel/xyz", some "Platz 1, Hauptstr. 5"⟩

/-- A well-formed group with neither a venue row nor a detail link. -/
def grpC : GameGroup :=
  ⟨⟨["row-headline"], "Fr, 02.05.2025 - 19:30 Uhr | Pokal", [], [], []⟩,
   ⟨[], "", ["TSV Mitte", "TSV Rand"], [], []⟩, none⟩

@[simp] theorem Game.empty_datetime : Game.empty.datetime = none := rfl

@[simp] theorem Game.empty_competition : Game.empty.competition = none := rfl

@[simp] theorem Game.empty_team1 : Game.empty.team1 = none := rfl

@[simp] theorem Game.empty_team2 : Game.empty.team2 = none := rfl

@[simp] theorem Game.empty_details : Game.empty.details = none := rfl

@[simp] theorem Game.empty_venue : Game.empty.venue = none := rfl

theorem parseGamesAux_append (xs ys : List Row) (st : PState) :
    parseGamesAux st (xs ++ ys) =
      match parseGamesAux st xs with
      | .error e => .error e
      | .ok st' => parseGamesAux st' ys := by
  induction xs generalizing st with
  | nil => simp [parseGamesAux]
  | cons r rs ih =>
    simp only [List.cons_append, parseGamesAux]
    cases step st r with
    | error e => rfl
    | ok st' => exact ih st'

theorem step_headline_nomatch (st : PState) (row : Row)
    (hc : "row-headline" ∈ row.classes)
    (hs : hlSearch (pyStripL row.text.data) = none) :
    step st row = .ok ⟨if st.current ≠ Game.empty ∧ st.skip = false
                         then st.games ++ [st.current] else st.games,
                       Game.empty, true⟩ := by
  by_cases hcur : st.current = Game.empty <;>
    by_cases hsk : st.skip = false <;>
      simp [step, hc, hs, hcur, hsk]

theorem step_skip_ignored (st : PState) (row : Row)
    (hsk : st.skip = true)
    (hc : "row-headline" ∉ row.classes) :
    step st row = .ok st := by
  simp [step, hsk, hc]

theorem step_detail (st : PState) (row : Row) (c1 c2 : String) (t : List String)
    (hsk : st.skip = false)
    (hcl : row.classes = [] ∨ row.classes = ["odd"])
    (hcn : row.clubNames = c1 :: c2 :: t) :
    step st row = .ok { st with current :=
      (match row.detailHrefs with
       | [] => { st.current with team1 := some (pyStrip c1), team2 := some (pyStrip c2) }
       | h :: _ => { st.current with team1 := some (pyStrip c1), team2 := some (pyStrip c2),
                                     details := some h }) } := by
  have hnh : "row-headline" ∉ row.classes := by
    rcases hcl with h | h <;> rw [h] <;> decide
  rcases hcl with h | h <;>
    cases hd : row.detailHrefs <;>
      simp [step, hsk, hnh, h, hcn, hd]

theorem step_venue (st : PState) (row : Row) (v : String) (t : List String)
    (hsk : st.skip = false)
    (hnh : "row-headline" ∉ row.classes)
    (hne : row.classes ≠ [])
    (hno : row.classes ≠ ["odd"])
    (hv : "row-venue" ∈ row.classes)
    (hvc : row.venueCells = v :: t) :
    step st row = .ok { st with current := { st.current with venue := some (pyStrip v) } } := by
  simp [step, hsk, hnh, hne, hno, hv, hvc]

theorem gameOf_ne_empty (grp : GameGroup) (h : WFGroup grp) : gameOf grp ≠ Game.empty := by
  have hp := h.hl_parse
  cases hps : headlineParse grp.headline.text with
  | none => rw [hps] at hp; simp at hp
  | some p =>
    obtain ⟨dt, g2⟩ := p
    have h2 := h.det_clubs
    cases hcn : grp.detail.clubNames with
    | nil => rw [hcn] at h2; simp at h2
    | cons c1 rest =>
      cases rest with
      | nil => rw [hcn] at h2; simp at h2
      | cons c2 t =>
        simp [gameOf, hps, hcn, Game.empty]

theorem headlineParse_inv (t : String) (dt : PyDateTime) (g2 : List Char)
    (hps : headlineParse t = some (dt, g2)) :
    ∃ g1, hlSearch (pyStripL t.data) = some (g1, g2) ∧ strptimeDM g1 = some dt := by
  unfold headlineParse at hps
  cases hsr : hlSearch (pyStripL t.data) with
  | none => simp [hsr] at hps
  | some q =>
    obtain ⟨g1, g2''⟩ := q
    simp only [hsr] at hps
    cases hst : strptimeDM g1 with
    | none => simp [hst] at hps
    | some dt2 =>
      simp only [hst, Option.some.injEq, Prod.mk.injEq] at hps
      exact ⟨g1, by rw [hps.2], by rw [hst, hps.1]⟩

theorem group_step (grp : GameGroup) (h : WFGroup grp) (gs : List Game) (cur : Game)
    (rest : List Row) :
    parseGamesAux ⟨gs, cur, false⟩ (grp.rows ++ rest) =
      parseGamesAux ⟨finishState ⟨gs, cur, false⟩, gameOf grp, false⟩ rest := by
  have hp := h.hl_parse
  have hc := h.hl_class
  cases hps : headlineParse grp.headline.text with
  | none => rw [hps] at hp; simp at hp
  | some p =>
    obtain ⟨dt, g2'⟩ := p
    obtain ⟨g1, hsr, hst⟩ := headlineParse_inv grp.headline.text dt g2' hps
    have h2 := h.det_clubs
    cases hcn : grp.detail.clubNames with
    | nil => rw [hcn] at h2; simp at h2
    | cons c1 rest1 =>
      cases rest1 with
      | nil => rw [hcn] at h2; simp at h2
      | cons c2 t =>
        cases hven : grp.venue with
        | none =>
          rcases h.det_class with hdc | hdc <;>
            cases hd : grp.detail.detailHrefs <;>
              by_cases hcur : cur = Game.empty <;>
                simp [GameGroup.rows, parseGamesAux, step, hc, hsr, hst, hdc, hcn,
                  hd, hcur, hven, gameOf, hps, finishState]
        | some v =>
          obtain ⟨hvnh, hvne, hvno, hvv, hvc⟩ := h.ven_ok v hven
          cases hvcl : v.venueCells with
          | nil => exact absurd hvcl hvc
          | cons vc vt =>
            rcases h.det_class with hdc | hdc <;>
              cases hd : grp.detail.detailHrefs <;>
                by_cases hcur : cur = Game.empty <;>
                  simp [GameGroup.rows, parseGamesAux, step, hc, hsr, hst, hdc, hcn,
                    hd, hcur, hven, hvnh, hvne, hvno, hvv, hvcl, gameOf, hps,
                    finishState]

theorem parse_groups (grps : List GameGroup) (h : ∀ g ∈ grps, WFGroup g)
    (gs : List Game) (cur : Game) :
    ∃ st, parseGamesAux ⟨gs, cur, false⟩ (rowsOfGroups grps) = .ok st ∧
      finishState st = finishState ⟨gs, cur, false⟩ ++ grps.map gameOf := by
  induction grps generalizing gs cur with
  | nil => exact ⟨⟨gs, cur, false⟩, rfl, by simp⟩
  | cons grp rest ih =>
    have hwf : WFGroup grp := h grp (by simp)
    have hrest : ∀ g ∈ rest, WFGroup g := fun g hg => h g (by simp [hg])
    rw [rowsOfGroups, group_step grp hwf gs cur]
    obtain ⟨st, h1, h2⟩ := ih hrest (finishState ⟨gs, cur, false⟩) (gameOf grp)
    refine ⟨st, h1, ?_⟩
    rw [h2]
    have : finishState ⟨finishState ⟨gs, cur, false⟩, gameOf grp, false⟩ =
        finishState ⟨gs, cur, false⟩ ++ [gameOf grp] := by
      simp [finishState, gameOf_ne_empty grp hwf]
    rw [this]
    simp

theorem parse_games_groups (grps : List GameGroup) (h : ∀ g ∈ grps, WFGroup g) :
    parse_games (rowsOfGroups grps) = .ok (grps.map gameOf) := by
  obtain ⟨st, h1, h2⟩ := parse_groups grps h [] Game.empty
  unfold parse_games
  rw [h1]
  show Except.ok (finishState st) = Except.ok (grps.map gameOf)
  rw [h2]
  simp [finishState]

theorem gameOf_eq (grp : GameGroup) (h : WFGroup grp) :
    ∃ dt g2 c1 c2 t, headlineParse grp.headline.text = some (dt, g2) ∧
      grp.detail.clubNames = c1 :: c2 :: t ∧
      gameOf grp = ⟨some dt, some (String.mk (pyStripL g2)), some (pyStrip c1),
                    some (pyStrip c2), grp.detail.detailHrefs.head?,
                    grp.venue.map (fun v => pyStrip (v.venueCells.headD ""))⟩ := by
  have hp := h.hl_parse
  cases hps : headlineParse grp.headline.text with
  | none => rw [hps] at hp; simp at hp
  | some p =>
    obtain ⟨dt, g2⟩ := p
    have h2 := h.det_clubs
    cases hcn : grp.detail.clubNames with
    | nil => rw [hcn] at h2; simp at h2
    | cons c1 r1 =>
      cases r1 with
      | nil => rw [hcn] at h2; simp at h2
      | cons c2 t => exact ⟨dt, g2, c1, c2, t, rfl, rfl, by simp [gameOf, hps, hcn]⟩

theorem gameOf_fields (grp : GameGroup) (h : WFGroup grp) :
    (gameOf grp).datetime.isSome = true ∧ (gameOf grp).competition.isSome = true ∧
    (gameOf grp).team1.isSome = true ∧ (gameOf grp).team2.isSome = true := by
  obtain ⟨dt, g2, c1, c2, t, _, _, hg⟩ := gameOf_eq grp h
  rw [hg]
  exact ⟨rfl, rfl, rfl, rfl⟩

theorem parse_single (grp : GameGroup) (h : WFGroup grp) :
    parse_games grp.rows = .ok [gameOf grp] := by
  have hall : ∀ g ∈ [grp], WFGroup g := by
    intro g hg
    simp at hg
    subst hg
    exact h
  have := parse_games_groups [grp] hall
  simpa [rowsOfGroups] using this

theorem replaceL_comma_spec (s : List Char) :
    replaceL [','] ['\\', ','] s = escapeCommaSpec s := by
  induction s with
  | nil => simp [replaceL, escapeCommaSpec]
  | cons c rest ih =>
    by_cases hcomma : c = ','
    · subst hcomma
      rw [replaceL]
      simp [List.isPrefixOf, ih, escapeCommaSpec]
    · have hcomma' : ¬(',' = c) := fun h => hcomma h.symm
      rw [replaceL]
      simp [List.isPrefixOf, hcomma, hcomma', ih, escapeCommaSpec]

theorem isDigit_pad (x : Nat) : (Char.ofNat (48 + x % 10)).isDigit = true := by
  have h10 : x % 10 < 10 := Nat.mod_lt _ (by norm_num)
  revert h10
  generalize x % 10 = k
  intro h10
  interval_cases k <;> decide

theorem pad2_digits (n : Nat) : ∀ c ∈ pad2 n, c.isDigit = true := by
  intro c hc
  simp only [pad2, List.mem_cons, List.not_mem_nil, or_false] at hc
  rcases hc with rfl | rfl <;> exact isDigit_pad _

theorem pad4_digits (n : Nat) : ∀ c ∈ pad4 n, c.isDigit = true := by
  intro c hc
  simp only [pad4, List.mem_cons, List.not_mem_nil, or_false] at hc
  rcases hc with rfl | rfl | rfl | rfl <;> exact isDigit_pad _

theorem strftime_shape (dt : PyDateTime) : compactShape (strftimeCompact dt) := by
  refine ⟨pad4 dt.year ++ pad2 dt.month ++ pad2 dt.day,
          pad2 dt.hour ++ pad2 dt.minute ++ ['0', '0'], ?_, ?_, ?_, ?_, ?_⟩
  · simp [strftimeCompact]
  · simp [pad4, pad2]
  · simp [pad2]
  · intro c hc
    rcases List.mem_append.mp hc with h1 | h1
    · rcases List.mem_append.mp h1 with h2 | h2
      · exact pad4_digits _ c h2
      · exact pad2_digits _ c h2
    · exact pad2_digits _ c h1
  · intro c hc
    rcases List.mem_append.mp hc with h1 | h1
    · rcases List.mem_append.mp h1 with h2 | h2
      · exact pad2_digits _ c h2
      · exact pad2_digits _ c h2
    · have : c = '0' := by
        simp only [List.mem_cons, List.not_mem_nil, or_false] at h1
        rcases h1 with rfl | rfl <;> rfl
      rw [this]
      decide

theorem wfGrpA : WFGroup grpA :=
  ⟨by decide, by decide, by decide, by decide,
   by
     intro v hv
     simp [grpA] at hv
     subst hv
     exact ⟨by decide, by decide, by decide, by decide, by decide⟩⟩

theorem wfGrpB : WFGroup grpB :=
  ⟨by decide, by decide, by decide, by decide, by intro v hv; simp [grpB] at hv⟩

theorem wfGrpC : WFGroup grpC :=
  ⟨by decide, by decide, by decide, by decide, by intro v hv; simp [grpC] at hv⟩

/-- C1 (counterexample): the original claim fails as a universal statement
over all row sequences.  A single matching headline row with no following
detail row is a row sequence whose output record reaches the output stage
with `team1` and `team2` absent. -/
theorem C1_counterexample :
    parse_games [hlRowC8] = .ok [dtOnlyGame] ∧
    dtOnlyGame.team1 = none ∧ dtOnlyGame.team2 = none :=
  ⟨by decide, rfl, rfl⟩

/-- C1 (amended): over row sequences that are concatenations of well-formed
headline-led groups, every record that reaches the output stage carries
`datetime`, `competition`, `team1` and `team2`; moreover a headline whose
text does not match the date pattern resets the accumulator to the empty
record and sets the skip flag (so that record accumulates nothing and, being
empty, is never appended), and while the skip flag is set every non-headline
row is ignored entirely. -/
theorem C1_thm :
    (∀ grps : List GameGroup, (∀ g ∈ grps, WFGroup g) →
      ∀ gs, parse_games (rowsOfGroups grps) = .ok gs →
        ∀ g ∈ gs, g.datetime.isSome = true ∧ g.competition.isSome = true ∧
          g.team1.isSome = true ∧ g.team2.isSome = true) ∧
    (∀ (st : PState) (row : Row), "row-headline" ∈ row.classes →
      hlSearch (pyStripL row.text.data) = none →
      step st row = .ok ⟨if st.current ≠ Game.empty ∧ st.skip = false
                           then st.games ++ [st.current] else st.games,
                         Game.empty, true⟩) ∧
    (∀ (st : PState) (row : Row), st.skip = true → "row-headline" ∉ row.classes →
      step st row = .ok st) := by
  refine ⟨?_, step_headline_nomatch, step_skip_ignored⟩
  intro grps hwf gs hparse g hg
  rw [parse_games_groups grps hwf] at hparse
  injection hparse with heq
  subst heq
  obtain ⟨grp, hgrp, rfl⟩ := List.mem_map.mp hg
  exact gameOf_fields grp (hwf grp hgrp)

/-- C1 (witness): the amended statement instantiated at the concrete group
`grpA`, at a dateless headline in the initial state, and at a detail row
reached while the skip flag is set. -/
theorem C1_witness :
    ((gameOf grpA).datetime.isSome = true ∧ (gameOf grpA).competition.isSome = true ∧
     (gameOf grpA).team1.isSome = true ∧ (gameOf grpA).team2.isSome = true) ∧
    step ⟨[], Game.empty, false⟩ badHlRow = .ok ⟨[], Game.empty, true⟩ ∧
    step ⟨[], dtOnlyGame, true⟩ detRowC8 = .ok ⟨[], dtOnlyGame, true⟩ :=
  ⟨C1_thm.1 [grpA] (fun g hg => by simp at hg; subst hg; exact wfGrpA)
      [gameOf grpA] (by decide) (gameOf grpA) (by simp),
   C1_thm.2.1 ⟨[], Game.empty, false⟩ badHlRow (by decide) (by decide),
   C1_thm.2.2 ⟨[], dtOnlyGame, true⟩ detRowC8 rfl (by decide)⟩

/-- C2: a row sequence consisting of N well-formed headline-led game groups
parses to exactly the N records of those groups, in source order. -/
theorem C2_thm (grps : List GameGroup) (h : ∀ g ∈ grps, WFGroup g) :
    parse_games (rowsOfGroups grps) = .ok (grps.map gameOf) ∧
    (grps.map gameOf).length = grps.length :=
  ⟨parse_games_groups grps h, by simp⟩

/-- C2 (witness): the statement at the concrete two-group sequence
`[grpA, grpB]`. -/
theorem C2_witness :
    parse_games (rowsOfGroups [grpA, grpB]) = .ok ([grpA, grpB].map gameOf) ∧
    ([grpA, grpB].map gameOf).length = [grpA, grpB].length :=
  C2_thm [grpA, grpB]
    (fun g hg => by
      simp at hg
      rcases hg with rfl | rfl
      · exact wfGrpA
      · exact wfGrpB)

/-- C3 (counterexample): the claim fails as stated.  The headline text
`Sa, 12x04x2025 - 15:00 Uhr | Kreisliga A` does not match the pattern
`<anything>, <DD.MM.YYYY> - <HH:MM> Uhr | <competition>` (the separators of
its date part are `x`, not `.`), yet the Assembler raises: the regex accepts
the text through its `.` wildcards and strptime then rejects group 1 with a
ValueError. -/
theorem C3_counterexample :
    parse_games [wildcardHlRow] = .error .valueError := by decide

/-- C3 (amended): for every headline row whose text does not match the code's
search regex `, (\d{2}.\d{2}.\d{4} - \d{2}:\d{2} Uhr) \| (.+)`, the Assembler
never raises: the step succeeds, the new record is reset and marked skipped,
and the loop continues with the remaining rows. -/
theorem C3_thm (st : PState) (row : Row)
    (hc : "row-headline" ∈ row.classes)
    (hs : hlSearch (pyStripL row.text.data) = none) :
    ∃ st', step st row = .ok st' ∧ st'.current = Game.empty ∧ st'.skip = true ∧
      ∀ rest, parseGamesAux st (row :: rest) = parseGamesAux st' rest := by
  refine ⟨⟨if st.current ≠ Game.empty ∧ st.skip = false
             then st.games ++ [st.current] else st.games, Game.empty, true⟩,
          step_headline_nomatch st row hc hs, rfl, rfl, ?_⟩
  intro rest
  simp [parseGamesAux, step_headline_nomatch st row hc hs]

/-- C3 (witness): the amended statement at a dateless headline in the initial
state. -/
theorem C3_witness :
    ∃ st', step ⟨[], Game.empty, false⟩ badHlRow = .ok st' ∧
      st'.current = Game.empty ∧ st'.skip = true ∧
      ∀ rest, parseGamesAux ⟨[], Game.empty, false⟩ (badHlRow :: rest) =
        parseGamesAux st' rest :=
  C3_thm ⟨[], Game.empty, false⟩ badHlRow (by decide) (by decide)

/-- C4 (code evaluation at the failing input): after a dateless headline
followed directly by a matching headline, the row loop ends with the skip
flag still set and a nonempty accumulator, and the final append of
`parse_games` appends that accumulator anyway — the claimed skip check at the
end of the pass does not exist in the code. -/
theorem C4_thm :
    parseGamesAux ⟨[], Game.empty, false⟩ poisonRows = .ok ⟨[], dtOnlyGame, true⟩ ∧
    dtOnlyGame ≠ Game.empty ∧
    parse_games poisonRows = .ok [dtOnlyGame] :=
  ⟨by decide, by decide, by decide⟩

/-- C5: a processed detail row with fewer than two club-name elements, and a
processed venue row without a colspan-3 cell, make the step raise an
index-out-of-range error, and any step error propagates out of `parse_games`
fatally — no recovery path exists. -/
theorem C5_thm :
    (∀ (st : PState) (row : Row), st.skip = false →
      (row.classes = [] ∨ row.classes = ["odd"]) → row.clubNames.length < 2 →
      step st row = .error .indexError) ∧
    (∀ (st : PState) (row : Row), st.skip = false → "row-headline" ∉ row.classes →
      row.classes ≠ [] → row.classes ≠ ["odd"] → "row-venue" ∈ row.classes →
      row.venueCells = [] → step st row = .error .indexError) ∧
    (∀ (pre post : List Row) (row : Row) (st1 : PState),
      parseGamesAux ⟨[], Game.empty, false⟩ pre = .ok st1 →
      step st1 row = .error .indexError →
      parse_games (pre ++ row :: post) = .error .indexError) := by
  refine ⟨?_, ?_, ?_⟩
  · intro st row hsk hcl hlen
    have hnh : "row-headline" ∉ row.classes := by
      rcases hcl with h | h <;> rw [h] <;> decide
    cases hcn : row.clubNames with
    | nil => rcases hcl with h | h <;> simp [step, hsk, hnh, h, hcn]
    | cons c1 r1 =>
      cases r1 with
      | nil => rcases hcl with h | h <;> simp [step, hsk, hnh, h, hcn]
      | cons c2 t =>
        exfalso
        rw [hcn] at hlen
        simp only [List.length_cons] at hlen
        omega
  · intro st row hsk hnh hne hno hv hvc
    simp [step, hsk, hnh, hne, hno, hv, hvc]
  · intro pre post row st1 h1 hstep
    unfold parse_games
    rw [parseGamesAux_append, h1]
    simp [parseGamesAux, hstep]

/-- C5 (witness): the statement at a one-club detail row, at a venue row
without cells, and at the propagation of the detail error after one headline
row. -/
theorem C5_witness :
    step ⟨[], Game.empty, false⟩ malDetailRow = .error .indexError ∧
    step ⟨[], Game.empty, false⟩ malVenueRow = .error .indexError ∧
    parse_games ([hlRowC8] ++ malDetailRow :: []) = .error .indexError :=
  ⟨C5_thm.1 ⟨[], Game.empty, false⟩ malDetailRow rfl (Or.inl rfl) (by decide),
   C5_thm.2.1 ⟨[], Game.empty, false⟩ malVenueRow rfl (by decide) (by decide)
     (by decide) (by decide) rfl,
   C5_thm.2.2 [hlRowC8] [] malDetailRow ⟨[], dtOnlyGame, false⟩ (by decide) (by decide)⟩

/-- C6: parsing a well-formed game group yields one record whose emitted
event has DTSTART equal to the parsed datetime and DTEND equal to the parsed
datetime plus 105 minutes, both in the compact eight-digits, T, six-digits
timestamp form. -/
theorem C6_thm (grp : GameGroup) (h : WFGroup grp) :
    ∃ dt, parse_games grp.rows = .ok [gameOf grp] ∧ (gameOf grp).datetime = some dt ∧
      ∃ e, eventFieldsOf (gameOf grp) = .ok e ∧
        e.dtstart = strftimeCompact dt ∧
        e.dtend = strftimeCompact (addMinutes dt 105) ∧
        compactShape e.dtstart ∧ compactShape e.dtend := by
  obtain ⟨dt, g2, c1, c2, t, hps, hcn, hg⟩ := gameOf_eq grp h
  refine ⟨dt, parse_single grp h, by rw [hg], ?_⟩
  rw [hg]
  exact ⟨_, rfl, rfl, rfl, strftime_shape dt, strftime_shape _⟩

/-- C6 (witness): the statement at the concrete group `grpA`. -/
theorem C6_witness :
    ∃ dt, parse_games grpA.rows = .ok [gameOf grpA] ∧ (gameOf grpA).datetime = some dt ∧
      ∃ e, eventFieldsOf (gameOf grpA) = .ok e ∧
        e.dtstart = strftimeCompact dt ∧
        e.dtend = strftimeCompact (addMinutes dt 105) ∧
        compactShape e.dtstart ∧ compactShape e.dtend :=
  C6_thm grpA wfGrpA

/-- C7: in the emitted event every comma of the competition (DESCRIPTION) and
of the venue (LOCATION) is replaced by backslash-comma, while the summary,
the URL and the calendar-name label are emitted verbatim, with no escaping
applied. -/
theorem C7_thm (g : Game) (t1 t2 comp : String) (dt : PyDateTime)
    (h1 : g.team1 = some t1) (h2 : g.team2 = some t2)
    (h3 : g.competition = some comp) (h4 : g.datetime = some dt) :
    ∃ e, eventFieldsOf g = .ok e ∧
      e.description = String.mk (escapeCommaSpec comp.data) ∧
      e.location = (match g.venue with
                    | some v => String.mk (escapeCommaSpec v.data)
                    | none => "") ∧
      e.summary = t1 ++ " - " ++ t2 ∧
      e.url = (match g.details with | some d => d | none => "") ∧
      (∀ name : String, calendarHeader name =
        "BEGIN:VCALENDAR\n" ++ ("X-WR-CALNAME:" ++ name ++ " Spielplan\n")) := by
  obtain ⟨dtF, compF, t1F, t2F, detF, venF⟩ := g
  simp only at h1 h2 h3 h4
  subst h1
  subst h2
  subst h3
  subst h4
  refine ⟨_, rfl, ?_, ?_, rfl, rfl, fun name => rfl⟩
  · show escapeCommas comp = String.mk (escapeCommaSpec comp.data)
    rw [escapeCommas, replaceL_comma_spec]
  · cases venF with
    | none => rfl
    | some v =>
      show escapeCommas v = String.mk (escapeCommaSpec v.data)
      rw [escapeCommas, replaceL_comma_spec]

/-- C7 (witness): the statement at a record whose competition and venue both
contain commas and which carries a detail link. -/
theorem C7_witness :
    ∃ e, eventFieldsOf c7Game = .ok e ∧
      e.description = String.mk (escapeCommaSpec "Kreisliga A, Staffel 2".data) ∧
      e.location = (match c7Game.venue with
                    | some v => String.mk (escapeCommaSpec v.data)
                    | none => "") ∧
      e.summary = "FC Nord" ++ " - " ++ "FC Süd" ∧
      e.url = (match c7Game.details with | some d => d | none => "") ∧
      (∀ name : String, calendarHeader name =
        "BEGIN:VCALENDAR\n" ++ ("X-WR-CALNAME:" ++ name ++ " Spielplan\n")) :=
  C7_thm c7Game "FC Nord" "FC Süd" "Kreisliga A, Staffel 2" ⟨2025, 4, 12, 15, 0⟩
    rfl rfl rfl rfl

/-- C8: the concrete scenario — headline
`Sa, 12.04.2025 - 15:00 Uhr | Kreisliga A`, teams FC Nord and FC Süd, venue
Sportplatz Ost — parses to one record whose event fields are exactly
DTSTART 20250412T150000, DTEND 20250412T164500, SUMMARY FC Nord - FC Süd,
LOCATION Sportplatz Ost, DESCRIPTION Kreisliga A and an empty URL. -/
theorem C8_thm :
    parse_games c8Rows = .ok [c8Game] ∧
    eventFieldsOf c8Game = .ok ⟨"20250412T150000", "20250412T164500",
      "FC Nord - FC Süd", "Sportplatz Ost", "Kreisliga A", ""⟩ := by
  constructor
  · decide
  · simp only [escapeCommas, replaceL_comma_spec, eventFieldsOf, c8Game]
    decide

/-- C9: a well-formed game group without a venue row yields an event with an
empty LOCATION field, and one without a detail link element yields an event
with an empty URL field. -/
theorem C9_thm (grp : GameGroup) (h : WFGroup grp) :
    parse_games grp.rows = .ok [gameOf grp] ∧
    (grp.venue = none → ∃ e, eventFieldsOf (gameOf grp) = .ok e ∧ e.location = "") ∧
    (grp.detail.detailHrefs = [] → ∃ e, eventFieldsOf (gameOf grp) = .ok e ∧ e.url = "") := by
  obtain ⟨dt, g2, c1, c2, t, hps, hcn, hg⟩ := gameOf_eq grp h
  refine ⟨parse_single grp h, ?_, ?_⟩
  · intro hv
    rw [hg, hv]
    exact ⟨_, rfl, rfl⟩
  · intro hd
    rw [hg, hd]
    exact ⟨_, rfl, rfl⟩

/-- C9 (witness): the statement at the concrete group `grpC`, which has no
venue row and no detail link. -/
theorem C9_witness :
    parse_games grpC.rows = .ok [gameOf grpC] ∧
    (grpC.venue = none → ∃ e, eventFieldsOf (gameOf grpC) = .ok e ∧ e.location = "") ∧
    (grpC.detail.detailHrefs = [] →
      ∃ e, eventFieldsOf (gameOf grpC) = .ok e ∧ e.url = "") :=
  C9_thm grpC wfGrpC

/-- C10: for every team name the calendar-open section labels the calendar
with the team name followed by the fixed suffix, and that label is never the
team name verbatim. -/
theorem C10_thm (name : String) :
    calendarHeader name =
      "BEGIN:VCALENDAR\nX-WR-CALNAME:" ++ (name ++ " Spielplan") ++ "\n" ∧
    name ++ " Spielplan" ≠ name := by
  constructor
  · apply String.ext
    simp [calendarHeader, String.data_append]
  · intro hcontra
    have hlen := congrArg String.length hcontra
    rw [String.length_append] at hlen
    have h10 : (" Spielplan" : String).length = 10 := by decide
    rw [h10] at hlen
    omega

end Fubade
